import Mathlib

/-!
Verification of the YouTube video downloader HTTP API (src/main.py).

The development shallowly embeds the program:
the regex URL validator is embedded as an executable matcher over lists
of characters, faithful to the semantics of re.match in Python (in
particular, the final anchor of the pattern accepts the end of the string
or a position just before a single trailing newline); the pytubefix
library is an oracle (structure Env) giving the outcome of each session
construction and probe; the three Flask handlers are pure functions from
the oracle and the parsed request body to an HTTP response, with
filesystem writes made explicit as a list of written directories.
-/

/-! ### Characters: the character classes used by the regex

The pattern in is_valid_youtube_url uses the classes w (word character),
S (non-whitespace) and the literal hyphen.  Word characters are modelled
by their ASCII reading (letters, digits, underscore); whitespace is the
ASCII whitespace set of Python (space, tab, newline, carriage return,
vertical tab, form feed).  All URLs considered by the claims are ASCII.
-/

def pyWS (c : Char) : Bool :=
  c == ' ' || c == '\t' || c == '\n' || c == '\r' || c == '\x0b' || c == '\x0c'

def isWordChar (c : Char) : Bool :=
  c.isAlphanum || c == '_'

def isTokenChar (c : Char) : Bool :=
  isWordChar c || c == '-'

/-! ### The URL validator

Embedding of

  def is_valid_youtube_url(url):
      pattern = r"^(https?://)?(www\.)?youtube\.com/watch\?v=[\w-]+(&\S*)?$"
      return re.match(pattern, url) is not None

The matcher is parameterised by the semantics of the final anchor: endPy
is the semantics of the dollar anchor in Python (end of string, or just
before a newline that ends the string), endStrict is plain end of
string.  The greedy repetitions of the pattern are deterministic here:
no character accepted by a repetition can start the continuation of the
pattern, so the greedy translation below is exact.
-/

def endPy (cs : List Char) : Bool :=
  cs == ([] : List Char) || cs == ['\n']

def endStrict (cs : List Char) : Bool :=
  cs == ([] : List Char)

/-- Remove a literal from the head of the character list, the embedding of
matching a sequence of literal characters of the pattern. -/
def dropLit : List Char → List Char → Option (List Char)
  | [], cs => some cs
  | _ :: _, [] => none
  | a :: as, c :: cs => if a = c then dropLit as cs else none

/-- The tail of the pattern after an ampersand: zero or more
non-whitespace characters, then the final anchor. -/
def ampTail (fin : List Char → Bool) (cs : List Char) : Bool :=
  fin (cs.dropWhile fun c => !pyWS c)

/-- The optional query tail of the pattern: either an ampersand followed
by non-whitespace characters, or directly the final anchor. -/
def queryTail (fin : List Char → Bool) (cs : List Char) : Bool :=
  match cs with
  | [] => fin []
  | c :: rest => if c = '&' then ampTail fin rest else fin (c :: rest)

/-- The video token of the pattern: one or more word characters or
hyphens, then the optional query tail. -/
def vPart (fin : List Char → Bool) : List Char → Bool
  | [] => false
  | c :: rest => isTokenChar c && queryTail fin (rest.dropWhile isTokenChar)

/-- Match a literal piece of the pattern, then continue with the rest of
the pattern. -/
def litThen (lit : List Char) (k : List Char → Bool) (cs : List Char) : Bool :=
  match dropLit lit cs with
  | some r => k r
  | none => false

/-- The host, path and query key of the pattern, all literal. -/
def hostPart (fin : List Char → Bool) (cs : List Char) : Bool :=
  litThen "youtube.com/watch?v=".data (vPart fin) cs

/-- The optional www subdomain of the pattern. -/
def wwwPart (fin : List Char → Bool) (cs : List Char) : Bool :=
  hostPart fin cs || litThen "www.".data (hostPart fin) cs

/-- The optional scheme of the pattern. -/
def schemePart (fin : List Char → Bool) (cs : List Char) : Bool :=
  wwwPart fin cs || litThen "http://".data (wwwPart fin) cs ||
    litThen "https://".data (wwwPart fin) cs

/-- The URL validator of src/main.py. -/
def is_valid_youtube_url (url : String) : Bool :=
  schemePart endPy url.data

/-! ### The shape of an accepted URL, following the words of the spec

The spec describes the accepted strings as: optional http or https
scheme, optional www subdomain, host youtube.com, path /watch, a v=
parameter whose value is one or more word characters or hyphens,
optionally followed by an ampersand and further (non-whitespace) query
content.  RestOk is that description of the tail after the token,
parameterised by the meaning of the end of the URL; SpecShape is the
description itself, ending strictly at the end of the string. -/

def RestOk (fin : List Char → Bool) (rest : List Char) : Prop :=
  fin rest = true ∨
    ∃ q r, rest = '&' :: (q ++ r) ∧ (∀ c ∈ q, pyWS c = false) ∧ fin r = true

def ShapeOf (fin : List Char → Bool) (cs : List Char) : Prop :=
  ∃ scheme www tok rest,
    (scheme = [] ∨ scheme = "http://".data ∨ scheme = "https://".data) ∧
    (www = [] ∨ www = "www.".data) ∧
    tok ≠ [] ∧ (∀ c ∈ tok, isTokenChar c = true) ∧
    RestOk fin rest ∧
    cs = scheme ++ www ++ "youtube.com/watch?v=".data ++ tok ++ rest

/-- The set of strings the spec says the validator accepts: exactly the
shape above, ending at the end of the string. -/
def SpecShape (url : String) : Prop :=
  ShapeOf endStrict url.data

/-! ### The pytubefix library as an oracle

A stream object carries the fields the handlers inspect; a session (YT)
carries the metadata accessors and the stream list.  Env gives, for the
URL of the current request, the outcome of each way the program can
construct and probe a session: the bypass construction (client WEB with
the caller tokens injected, probed by reading the title), the plain WEB
construction probed the same way, and the default-client construction
of the fallback.  An Except.error value is a raised exception carrying
str(e). -/

structure YStream where
  resolution : Option String
  progressive : Bool
  file_extension : String
  deriving DecidableEq

structure YT where
  title : String
  author : String
  length : Int
  views : Int
  description : String
  publish_date : Option String
  streams : List YStream
  deriving DecidableEq

structure Env where
  bypass : String → String → Except String YT
  webProbe : Except String YT
  defaultClient : Except String YT

/-- Truthiness in Python of an optional string: None and the empty
string are falsy. -/
def pyTruthy : Option String → Bool
  | Option.none => false
  | Option.some s => !(s == "")

/-- Case-insensitive containment of "bot", the embedding of
the test: the string bot in str(e).lower(). -/
def leadsWith : List Char → List Char → Bool
  | [], _ => true
  | _ :: _, [] => false
  | a :: as, b :: bs => a == b && leadsWith as bs

def containsSeq (sub : List Char) : List Char → Bool
  | [] => leadsWith sub []
  | c :: rest => leadsWith sub (c :: rest) || containsSeq sub rest

def msgHasBot (e : String) : Bool :=
  containsSeq ['b', 'o', 't'] (e.data.map Char.toLower)

/-- The attempts the resolver can make, recorded for observability. -/
inductive Attempt where
  | bypass
  | web
  | fallbackDefault
  deriving DecidableEq

/-- Embedding of get_yt_object of src/main.py.  The first component is
the returned session or the raised error; the second lists the
construction attempts in order. -/
def get_yt_object (env : Env) (po_token visitor_data : Option String) :
    Except String YT × List Attempt :=
  if pyTruthy po_token && pyTruthy visitor_data then
    (env.bypass (po_token.getD "") (visitor_data.getD ""), [Attempt.bypass])
  else
    match env.webProbe with
    | Except.ok yt => (Except.ok yt, [Attempt.web])
    | Except.error e =>
      if msgHasBot e then
        (env.defaultClient, [Attempt.web, Attempt.fallbackDefault])
      else
        (Except.error e, [Attempt.web])

/-! ### The video id derivation

Embedding of url.split('v=')[1].split('&')[0].  Python str.split cuts
the string at every non-overlapping occurrence of the separator, left to
right; splitVEqGo and splitAmpGo return the first segment and the
remaining segments for the separators "v=" and "&".  Indexing [1] can
raise IndexError in Python, hence the Option in videoId. -/

def splitVEqGo : List Char → List Char × List (List Char)
  | [] => ([], [])
  | [c] => ([c], [])
  | c :: d :: rest =>
    if c = 'v' ∧ d = '=' then
      let p := splitVEqGo rest
      ([], p.1 :: p.2)
    else
      let p := splitVEqGo (d :: rest)
      (c :: p.1, p.2)

def splitAmpGo : List Char → List Char × List (List Char)
  | [] => ([], [])
  | c :: rest =>
    if c = '&' then
      let p := splitAmpGo rest
      ([], p.1 :: p.2)
    else
      let p := splitAmpGo rest
      (c :: p.1, p.2)

def pySplitVEq (cs : List Char) : List (List Char) :=
  (splitVEqGo cs).1 :: (splitVEqGo cs).2

def pySplitAmp (cs : List Char) : List (List Char) :=
  (splitAmpGo cs).1 :: (splitAmpGo cs).2

/-- url.split('v=')[1].split('&')[0]: none models the IndexError raised
when the url has no occurrence of "v=". -/
def videoId : String → Option String := fun url =>
  match (pySplitVEq url.data)[1]? with
  | some seg => some (String.mk ((pySplitAmp seg).headD []))
  | none => none

/-! ### The handlers -/

structure VideoInfo where
  title : String
  author : String
  length : Int
  views : Int
  description : String
  publish_date : Option String
  deriving DecidableEq

inductive RespBody where
  | err : Option String → RespBody
  | message : String → RespBody
  | info : VideoInfo → RespBody
  | resolutions : List String → List String → RespBody
  deriving DecidableEq

structure Resp where
  status : Nat
  body : RespBody
  deriving DecidableEq

/-- The JSON body of a request: data.get of url, po_token and
visitor_data. -/
structure RequestBody where
  url : Option String
  po_token : Option String
  visitor_data : Option String

/-- Embedding of download_video of src/main.py.  The first component is
the (success, error_message) pair the function returns; the second is
the list of directories created or written.  The try/except turns a
raised resolver error, or the IndexError of the id derivation, into
(False, str(e)); the download call of the library itself is not
modelled as fallible. -/
def download_video (env : Env) (url resolution : String)
    (po_token visitor_data : Option String) :
    (Bool × Option String) × List String :=
  match (get_yt_object env po_token visitor_data).1 with
  | Except.error e => ((false, some e), [])
  | Except.ok yt =>
    match (yt.streams.filter fun st =>
        st.progressive && st.file_extension == "mp4" &&
          st.resolution == some resolution).head? with
    | some _ =>
      match videoId url with
      | some vid => ((true, none), ["./downloads/" ++ vid])
      | none => ((false, some "list index out of range"), [])
    | none => ((false, some "Video with the specified resolution not found."), [])

/-- Embedding of get_video_info of src/main.py.  The returned dict
always has six keys, so it is always truthy; Except models the
(video_info, error_message) pair. -/
def get_video_info (env : Env) (url : String)
    (po_token visitor_data : Option String) : Except String VideoInfo :=
  match (get_yt_object env po_token visitor_data).1 with
  | Except.error e => Except.error e
  | Except.ok yt =>
    Except.ok ⟨yt.title, yt.author, yt.length, yt.views, yt.description,
      yt.publish_date⟩

/-- Embedding of the route handler download_by_resolution.  The second
component is the list of directories created or written. -/
def download_by_resolution (env : Env) (resolution : String)
    (body : RequestBody) : Resp × List String :=
  if pyTruthy body.url = false then
    (⟨400, RespBody.err (some "Missing 'url' parameter in the request body.")⟩, [])
  else if is_valid_youtube_url (body.url.getD "") = false then
    (⟨400, RespBody.err (some "Invalid YouTube URL.")⟩, [])
  else
    let r := download_video env (body.url.getD "") resolution
      body.po_token body.visitor_data
    if r.1.1 then
      (⟨200, RespBody.message ("Video with resolution " ++ resolution ++
        " downloaded successfully.")⟩, r.2)
    else
      (⟨500, RespBody.err r.1.2⟩, r.2)

/-- Embedding of the route handler video_info. -/
def video_info (env : Env) (body : RequestBody) : Resp :=
  if pyTruthy body.url = false then
    ⟨400, RespBody.err (some "Missing 'url' parameter in the request body.")⟩
  else if is_valid_youtube_url (body.url.getD "") = false then
    ⟨400, RespBody.err (some "Invalid YouTube URL.")⟩
  else
    match get_video_info env (body.url.getD "") body.po_token body.visitor_data with
    | Except.ok vi => ⟨200, RespBody.info vi⟩
    | Except.error e => ⟨500, RespBody.err (some e)⟩

/-- The truthy-resolution comprehension filter: stream.resolution for
streams with a truthy resolution label (neither None nor empty). -/
def truthyRes (st : YStream) : Option String :=
  match st.resolution with
  | some r => if r = "" then none else some r
  | none => none

/-- list(set(...)): the duplicate removal performed by building a set;
the iteration order of the set does not survive the sorted() call that
follows, so dedup is an adequate embedding. -/
def pySetList (l : List String) : List String :=
  l.dedup

/-- sorted(...) on strings: ascending lexicographic order. -/
def pySorted (l : List String) : List String :=
  List.insertionSort (fun a b : String => a ≤ b) l

/-- Embedding of the route handler available_resolutions. -/
def available_resolutions (env : Env) (body : RequestBody) : Resp :=
  if pyTruthy body.url = false then
    ⟨400, RespBody.err (some "Missing 'url' parameter in the request body.")⟩
  else if is_valid_youtube_url (body.url.getD "") = false then
    ⟨400, RespBody.err (some "Invalid YouTube URL.")⟩
  else
    match (get_yt_object env body.po_token body.visitor_data).1 with
    | Except.error e => ⟨500, RespBody.err (some e)⟩
    | Except.ok yt =>
      let progressive_resolutions := pySetList
        ((yt.streams.filter fun st =>
          st.progressive && st.file_extension == "mp4").filterMap truthyRes)
      let all_resolutions := pySetList
        ((yt.streams.filter fun st =>
          st.file_extension == "mp4").filterMap truthyRes)
      ⟨200, RespBody.resolutions (pySorted progressive_resolutions)
        (pySorted all_resolutions)⟩

/-! ### Sample data for witnesses -/

def ytSample : YT :=
  ⟨"T", "A", 120, 5, "D", some "2019-01-01",
    [⟨some "720p", true, "mp4"⟩, ⟨some "720p", true, "mp4"⟩,
     ⟨some "480p", true, "mp4"⟩, ⟨some "1080p", false, "mp4"⟩,
     ⟨none, false, "mp4"⟩, ⟨some "999p", true, "webm"⟩]⟩

def envBotSample : Env :=
  ⟨fun _ _ => Except.error "bypass failed",
    Except.error "Detected as a Bot", Except.ok ytSample⟩

def envOkSample : Env :=
  ⟨fun _ _ => Except.error "bypass failed", Except.ok ytSample,
    Except.error "unused"⟩

/-! ### Claim C8: the output directory of a download -/

/-- The id the spec describes: the characters of the url after the first
occurrence of "v=". -/
def afterMarker : List Char → Option (List Char)
  | [] => none
  | [_] => none
  | c :: d :: rest =>
    if c = 'v' ∧ d = '=' then some rest else afterMarker (d :: rest)

/-- The id the spec describes: the substring of the url between the
first occurrence of "v=" and the next ampersand (or the end of the url
when no ampersand follows). -/
def specVideoId (url : String) : Option String :=
  (afterMarker url.data).map fun t => String.mk (t.takeWhile fun c => !(c == '&'))

/-! ### Correctness of the matcher with respect to the shape -/

theorem dropLit_eq_some : ∀ {lit cs r : List Char},
    dropLit lit cs = some r ↔ cs = lit ++ r := by
  intro lit
  induction lit with
  | nil =>
    intro cs r
    simp [dropLit]
  | cons a as ih =>
    intro cs r
    cases cs with
    | nil => simp [dropLit]
    | cons c cs =>
      by_cases hac : a = c
      · subst hac
        simp [dropLit, ih]
      · simp [dropLit, hac, Ne.symm hac]

theorem litThen_iff {lit : List Char} {k : List Char → Bool} {cs : List Char} :
    litThen lit k cs = true ↔ ∃ r, cs = lit ++ r ∧ k r = true := by
  unfold litThen
  cases h : dropLit lit cs with
  | none =>
    simp only [Bool.false_eq_true, false_iff]
    rintro ⟨r, rfl, _⟩
    rw [dropLit_eq_some.mpr rfl] at h
    cases h
  | some r =>
    simp only
    constructor
    · intro hk
      exact ⟨r, dropLit_eq_some.mp h, hk⟩
    · rintro ⟨r2, rfl, hk⟩
      have h2 : dropLit lit (lit ++ r2) = some r2 := dropLit_eq_some.mpr rfl
      rw [h] at h2
      cases h2
      exact hk

theorem endPy_eq_true {cs : List Char} : endPy cs = true ↔ cs = [] ∨ cs = ['\n'] := by
  simp [endPy]

theorem endStrict_eq_true {cs : List Char} : endStrict cs = true ↔ cs = [] := by
  simp [endStrict]

theorem finOk_endPy : ∀ cs, endPy cs = true → cs = [] ∨ cs = ['\n'] :=
  fun _ h => endPy_eq_true.mp h

theorem finOk_endStrict : ∀ cs, endStrict cs = true → cs = [] ∨ cs = ['\n'] :=
  fun _ h => Or.inl (endStrict_eq_true.mp h)

theorem dropWhile_append_sat {p : Char → Bool} {l1 l2 : List Char}
    (h : ∀ c ∈ l1, p c = true) : (l1 ++ l2).dropWhile p = l2.dropWhile p := by
  induction l1 with
  | nil => rfl
  | cons c l ih =>
    rw [List.cons_append, List.dropWhile_cons_of_pos (h c (by simp))]
    exact ih fun d hd => h d (by simp [hd])

theorem sat_of_mem_takeWhile {p : Char → Bool} :
    ∀ {l : List Char} {c : Char}, c ∈ l.takeWhile p → p c = true := by
  intro l
  induction l with
  | nil => intro c h; simp [List.takeWhile] at h
  | cons a l ih =>
    intro c h
    by_cases hp : p a
    · rw [List.takeWhile_cons_of_pos hp] at h
      rcases List.mem_cons.mp h with rfl | h2
      · exact hp
      · exact ih h2
    · rw [List.takeWhile_cons_of_neg hp] at h
      cases h

theorem queryTail_iff {fin : List Char → Bool}
    (hfin : ∀ cs, fin cs = true → cs = [] ∨ cs = ['\n']) (rest : List Char) :
    queryTail fin rest = true ↔ RestOk fin rest := by
  constructor
  · intro h
    match rest with
    | [] => exact Or.inl h
    | c :: rest2 =>
      by_cases hc : c = '&'
      · subst hc
        rw [queryTail, if_pos rfl] at h
        unfold ampTail at h
        refine Or.inr ⟨rest2.takeWhile (fun c => !pyWS c),
          rest2.dropWhile (fun c => !pyWS c), ?_, ?_, h⟩
        · rw [List.takeWhile_append_dropWhile]
        · intro c hc
          have := sat_of_mem_takeWhile hc
          simpa using this
      · rw [queryTail, if_neg hc] at h
        exact Or.inl h
  · intro h
    rcases h with h | ⟨q, r, rfl, hq, hr⟩
    · rcases hfin rest h with rfl | rfl
      · exact h
      · rw [queryTail, if_neg (by decide)]
        exact h
    · rw [queryTail, if_pos rfl]
      unfold ampTail
      rw [dropWhile_append_sat (by intro c hc; simp [hq c hc])]
      rcases hfin r hr with rfl | rfl
      · exact hr
      · rw [List.dropWhile_cons_of_neg (by decide)]
        exact hr

theorem vPart_iff {fin : List Char → Bool}
    (hfin : ∀ cs, fin cs = true → cs = [] ∨ cs = ['\n']) (cs : List Char) :
    vPart fin cs = true ↔
      ∃ tok rest, tok ≠ [] ∧ (∀ c ∈ tok, isTokenChar c = true) ∧
        RestOk fin rest ∧ cs = tok ++ rest := by
  constructor
  · intro h
    match cs with
    | [] => exact absurd h (by simp [vPart])
    | c :: rest =>
      rw [vPart, Bool.and_eq_true] at h
      obtain ⟨h1, h2⟩ := h
      refine ⟨c :: rest.takeWhile isTokenChar, rest.dropWhile isTokenChar,
        by simp, ?_, (queryTail_iff hfin _).mp h2, ?_⟩
      · intro d hd
        rcases List.mem_cons.mp hd with rfl | hd2
        · exact h1
        · exact sat_of_mem_takeWhile hd2
      · rw [List.cons_append, List.takeWhile_append_dropWhile]
  · rintro ⟨tok, rest, hne, htok, hrest, rfl⟩
    match tok, hne with
    | c :: tok2, _ =>
      have hres : rest.dropWhile isTokenChar = rest := by
        rcases hrest with h | ⟨q, r, hr, _, _⟩
        · rcases hfin rest h with rfl | rfl
          · rfl
          · rw [List.dropWhile_cons_of_neg (by decide)]
        · subst hr
          rw [List.dropWhile_cons_of_neg (by decide)]
      rw [List.cons_append, vPart, Bool.and_eq_true]
      refine ⟨htok c (by simp), ?_⟩
      rw [dropWhile_append_sat (fun d hd => htok d (by simp [hd])), hres]
      exact (queryTail_iff hfin rest).mpr hrest

theorem wwwPart_iff {fin : List Char → Bool} {cs : List Char} :
    wwwPart fin cs = true ↔
      ∃ www r, (www = [] ∨ www = "www.".data) ∧
        cs = www ++ "youtube.com/watch?v=".data ++ r ∧ vPart fin r = true := by
  unfold wwwPart hostPart
  rw [Bool.or_eq_true, litThen_iff, litThen_iff]
  constructor
  · rintro (⟨r, rfl, hr⟩ | ⟨r, rfl, hr⟩)
    · exact ⟨[], r, Or.inl rfl, by simp, hr⟩
    · rw [litThen_iff] at hr
      obtain ⟨r2, rfl, hr2⟩ := hr
      exact ⟨"www.".data, r2, Or.inr rfl, by simp, hr2⟩
  · rintro ⟨www, r, (rfl | rfl), rfl, hr⟩
    · exact Or.inl ⟨r, by simp, hr⟩
    · refine Or.inr ⟨"youtube.com/watch?v=".data ++ r, by simp, ?_⟩
      rw [litThen_iff]
      exact ⟨r, rfl, hr⟩

theorem schemePart_iff {fin : List Char → Bool}
    (hfin : ∀ cs, fin cs = true → cs = [] ∨ cs = ['\n']) (cs : List Char) :
    schemePart fin cs = true ↔ ShapeOf fin cs := by
  unfold schemePart ShapeOf
  rw [Bool.or_eq_true, Bool.or_eq_true, litThen_iff, litThen_iff, wwwPart_iff]
  constructor
  · rintro ((⟨www, r, hwww, rfl, hr⟩ | ⟨r, rfl, hr⟩) | ⟨r, rfl, hr⟩)
    · obtain ⟨tok, rest, hne, htok, hrest, rfl⟩ := (vPart_iff hfin r).mp hr
      exact ⟨[], www, tok, rest, Or.inl rfl, hwww, hne, htok, hrest, by simp⟩
    · rw [wwwPart_iff] at hr
      obtain ⟨www, r2, hwww, rfl, hr2⟩ := hr
      obtain ⟨tok, rest, hne, htok, hrest, rfl⟩ := (vPart_iff hfin r2).mp hr2
      exact ⟨"http://".data, www, tok, rest, Or.inr (Or.inl rfl), hwww, hne,
        htok, hrest, by simp⟩
    · rw [wwwPart_iff] at hr
      obtain ⟨www, r2, hwww, rfl, hr2⟩ := hr
      obtain ⟨tok, rest, hne, htok, hrest, rfl⟩ := (vPart_iff hfin r2).mp hr2
      exact ⟨"https://".data, www, tok, rest, Or.inr (Or.inr rfl), hwww, hne,
        htok, hrest, by simp⟩
  · rintro ⟨scheme, www, tok, rest, hs, hwww, hne, htok, hrest, rfl⟩
    have hv : vPart fin (tok ++ rest) = true :=
      (vPart_iff hfin _).mpr ⟨tok, rest, hne, htok, hrest, rfl⟩
    rcases hs with rfl | rfl | rfl
    · exact Or.inl (Or.inl ⟨www, tok ++ rest, hwww, by simp, hv⟩)
    · refine Or.inl (Or.inr ⟨www ++ "youtube.com/watch?v=".data ++ (tok ++ rest), by simp, ?_⟩)
      rw [wwwPart_iff]
      exact ⟨www, tok ++ rest, hwww, rfl, hv⟩
    · refine Or.inr ⟨www ++ "youtube.com/watch?v=".data ++ (tok ++ rest), by simp, ?_⟩
      rw [wwwPart_iff]
      exact ⟨www, tok ++ rest, hwww, rfl, hv⟩

/-! ### The effect of the Python dollar anchor

The matcher with the Python anchor accepts exactly the strict-shape
strings together with those same strings followed by one newline. -/

theorem restOk_endPy_iff {rest : List Char} :
    RestOk endPy rest ↔ RestOk endStrict rest ∨
      ∃ u, rest = u ++ ['\n'] ∧ RestOk endStrict u := by
  constructor
  · rintro (h | ⟨q, r, rfl, hq, hr⟩)
    · rcases endPy_eq_true.mp h with rfl | rfl
      · exact Or.inl (Or.inl (by decide))
      · exact Or.inr ⟨[], rfl, Or.inl (by decide)⟩
    · rcases endPy_eq_true.mp hr with rfl | rfl
      · exact Or.inl (Or.inr ⟨q, [], rfl, hq, by decide⟩)
      · refine Or.inr ⟨'&' :: q, by simp, Or.inr ⟨q, [], by simp, hq, by decide⟩⟩
  · rintro (h | ⟨u, rfl, h⟩)
    · rcases h with h | ⟨q, r, rfl, hq, hr⟩
      · rw [endStrict_eq_true] at h
        subst h
        exact Or.inl (by decide)
      · rw [endStrict_eq_true] at hr
        subst hr
        exact Or.inr ⟨q, [], rfl, hq, by decide⟩
    · rcases h with h | ⟨q, r, hu, hq, hr⟩
      · rw [endStrict_eq_true] at h
        subst h
        exact Or.inl (by decide)
      · rw [endStrict_eq_true] at hr
        subst hr
        subst hu
        exact Or.inr ⟨q, ['\n'], by simp, hq, by decide⟩

theorem shapeOf_endPy_iff {cs : List Char} :
    ShapeOf endPy cs ↔ ShapeOf endStrict cs ∨
      ∃ u, cs = u ++ ['\n'] ∧ ShapeOf endStrict u := by
  constructor
  · rintro ⟨s, w, tok, rest, hs, hw, hne, htok, hrest, rfl⟩
    rcases restOk_endPy_iff.mp hrest with h | ⟨u, rfl, h⟩
    · exact Or.inl ⟨s, w, tok, rest, hs, hw, hne, htok, h, rfl⟩
    · exact Or.inr ⟨s ++ w ++ "youtube.com/watch?v=".data ++ tok ++ u, by simp,
        s, w, tok, u, hs, hw, hne, htok, h, rfl⟩
  · rintro (⟨s, w, tok, rest, hs, hw, hne, htok, hrest, rfl⟩ |
      ⟨u, rfl, s, w, tok, rest, hs, hw, hne, htok, hrest, rfl⟩)
    · exact ⟨s, w, tok, rest, hs, hw, hne, htok,
        restOk_endPy_iff.mpr (Or.inl hrest), rfl⟩
    · exact ⟨s, w, tok, rest ++ ['\n'], hs, hw, hne, htok,
        restOk_endPy_iff.mpr (Or.inr ⟨rest, rfl, hrest⟩), by simp⟩

/-- Claim C3 counterexample: the validator accepts
"youtube.com/watch?v=abc" followed by a newline, although that string is
not of the described shape (re.match in Python lets the final anchor of
the pattern match just before a trailing newline), so the claim as
stated is false. -/
theorem url_validator_trailing_newline :
    is_valid_youtube_url "youtube.com/watch?v=abc\n" = true ∧
      ¬ SpecShape "youtube.com/watch?v=abc\n" := by
  refine ⟨by decide, fun h => ?_⟩
  have h2 := (schemePart_iff finOk_endStrict _).mpr h
  exact absurd h2 (by decide)

/-- Claim C3 (amended): the URL validator is a pure total function
returning true for exactly the strings of the shape optional http or
https scheme, optional www subdomain, host youtube.com, path /watch, a
v= parameter of one or more word characters or hyphens, optionally
followed by an ampersand and further non-whitespace query content — or
such a string followed by one extra trailing newline; every other
string (including short links, playlist-only links and mobile-domain
links) is rejected. -/
theorem url_validator_shape_amended (url : String) :
    is_valid_youtube_url url = true ↔
      SpecShape url ∨ ∃ u : String, url = u ++ "\n" ∧ SpecShape u := by
  unfold is_valid_youtube_url SpecShape
  rw [schemePart_iff finOk_endPy, shapeOf_endPy_iff]
  refine or_congr Iff.rfl ⟨?_, ?_⟩
  · rintro ⟨u, hu, h⟩
    refine ⟨String.mk u, String.ext ?_, h⟩
    rw [String.data_append]
    exact hu
  · rintro ⟨u, rfl, h⟩
    exact ⟨u.data, by rw [String.data_append], h⟩

/-! ### Claims about the client resolver -/

/-- Claim C1: without bypass credentials, the resolver attempts the
default-client fallback exactly when the probe of the WEB-client
session raises an error whose message contains bot as a
case-insensitive substring; in the bot case it falls back exactly once
and returns the outcome of the default-client construction (never the
original bot error), and in the non-bot case it raises the original
probe error without any fallback attempt. -/
theorem resolver_fallback_iff_bot (env : Env) (po vis : Option String)
    (h : (pyTruthy po && pyTruthy vis) = false) :
    (Attempt.fallbackDefault ∈ (get_yt_object env po vis).2 ↔
      ∃ e, env.webProbe = Except.error e ∧ msgHasBot e = true) ∧
    (∀ e, env.webProbe = Except.error e → msgHasBot e = true →
      (get_yt_object env po vis).1 = env.defaultClient ∧
      (get_yt_object env po vis).2.count Attempt.fallbackDefault = 1) ∧
    (∀ e, env.webProbe = Except.error e → msgHasBot e = false →
      (get_yt_object env po vis).1 = Except.error e ∧
      Attempt.fallbackDefault ∉ (get_yt_object env po vis).2) := by
  refine ⟨?_, ?_, ?_⟩
  · cases hw : env.webProbe with
    | ok yt => simp [get_yt_object, h, hw]
    | error e =>
      by_cases hb : msgHasBot e = true
      · simp [get_yt_object, h, hw, hb]
      · simp [get_yt_object, h, hw, hb]
  · intro e hw hb
    refine ⟨?_, ?_⟩ <;> simp [get_yt_object, h, hw, hb, List.count_cons]
  · intro e hw hb
    refine ⟨?_, ?_⟩ <;> simp [get_yt_object, h, hw, hb]

/-- Witness for C1: a concrete oracle whose WEB probe fails with a
bot-detection message. -/
theorem resolver_fallback_iff_bot_witness :
    ((pyTruthy (Option.none : Option String) &&
        pyTruthy (Option.none : Option String)) = false) ∧
    ((Attempt.fallbackDefault ∈
        (get_yt_object envBotSample Option.none Option.none).2 ↔
      ∃ e, envBotSample.webProbe = Except.error e ∧ msgHasBot e = true) ∧
    (∀ e, envBotSample.webProbe = Except.error e → msgHasBot e = true →
      (get_yt_object envBotSample Option.none Option.none).1 =
        envBotSample.defaultClient ∧
      (get_yt_object envBotSample Option.none Option.none).2.count
        Attempt.fallbackDefault = 1) ∧
    (∀ e, envBotSample.webProbe = Except.error e → msgHasBot e = false →
      (get_yt_object envBotSample Option.none Option.none).1 =
        Except.error e ∧
      Attempt.fallbackDefault ∉
        (get_yt_object envBotSample Option.none Option.none).2)) :=
  ⟨rfl, resolver_fallback_iff_bot envBotSample Option.none Option.none rfl⟩

/-- Claim C2: with both bypass credentials supplied and truthy, the
resolver builds only the WEB bypass session with the supplied tokens
injected, probes it, and returns its outcome directly — success or
failure alike, whatever the error message — and never takes the
bot-detection fallback path. -/
theorem resolver_bypass_no_fallback (env : Env) (po vis : Option String)
    (hp : pyTruthy po = true) (hv : pyTruthy vis = true) :
    get_yt_object env po vis =
      (env.bypass (po.getD "") (vis.getD ""), [Attempt.bypass]) := by
  unfold get_yt_object
  rw [hp, hv]
  rfl

/-- Witness for C2 at concrete credentials. -/
theorem resolver_bypass_no_fallback_witness :
    (pyTruthy (some "tok") = true) ∧ (pyTruthy (some "vd") = true) ∧
    get_yt_object envBotSample (some "tok") (some "vd") =
      (envBotSample.bypass "tok" "vd", [Attempt.bypass]) :=
  ⟨rfl, rfl,
    resolver_bypass_no_fallback envBotSample (some "tok") (some "vd") rfl rfl⟩

/-- Claim C9 (implicit): supplying exactly one of po_token and
visitor_data, or an empty value for either, has no effect — the
resolver behaves identically to a call with neither supplied; the
bypass path requires both to be present and truthy. -/
theorem lone_credential_ignored (env : Env) (po vis : Option String)
    (h : pyTruthy po = false ∨ pyTruthy vis = false) :
    get_yt_object env po vis = get_yt_object env Option.none Option.none := by
  unfold get_yt_object
  have hc : (pyTruthy po && pyTruthy vis) = false := by
    rcases h with h | h <;> simp [h]
  rw [hc]
  rfl

/-- Witness for C9: a lone po_token is ignored. -/
theorem lone_credential_ignored_witness :
    (pyTruthy (some "tok") = false ∨
      pyTruthy (Option.none : Option String) = false) ∧
    get_yt_object envBotSample (some "tok") Option.none =
      get_yt_object envBotSample Option.none Option.none :=
  ⟨Or.inr rfl,
    lone_credential_ignored envBotSample (some "tok") Option.none (Or.inr rfl)⟩

/-! ### Claims about request validation -/

/-- Claim C10 (implicit): a request whose body contains url as the empty
string is answered 400 with the missing-parameter message — not the
invalid-URL message — on all three endpoints, because the presence
check tests truthiness rather than key membership. -/
theorem empty_url_missing_message (env : Env) (resolution : String)
    (po vis : Option String) :
    download_by_resolution env resolution ⟨some "", po, vis⟩ =
      (⟨400, RespBody.err (some "Missing 'url' parameter in the request body.")⟩,
        []) ∧
    video_info env ⟨some "", po, vis⟩ =
      ⟨400, RespBody.err (some "Missing 'url' parameter in the request body.")⟩ ∧
    available_resolutions env ⟨some "", po, vis⟩ =
      ⟨400, RespBody.err (some "Missing 'url' parameter in the request body.")⟩ :=
  ⟨rfl, rfl, rfl⟩

/-- Claim C5: a request whose body lacks a url or whose url fails
validation is answered 400 with the fixed message (the invalid-URL
message when a truthy url is present, the missing-parameter message
otherwise) on all three endpoints; the extraction library is never
consulted — the response is identical under every oracle — and no
directory is written. -/
theorem invalid_url_rejected_early (env env2 : Env) (resolution : String)
    (body : RequestBody)
    (h : pyTruthy body.url = false ∨
      is_valid_youtube_url (body.url.getD "") = false) :
    download_by_resolution env resolution body =
      ((if pyTruthy body.url then
          Resp.mk 400 (RespBody.err (some "Invalid YouTube URL."))
        else
          Resp.mk 400 (RespBody.err
            (some "Missing 'url' parameter in the request body."))), []) ∧
    video_info env body =
      (if pyTruthy body.url then
        Resp.mk 400 (RespBody.err (some "Invalid YouTube URL."))
      else
        Resp.mk 400 (RespBody.err
          (some "Missing 'url' parameter in the request body."))) ∧
    available_resolutions env body =
      (if pyTruthy body.url then
        Resp.mk 400 (RespBody.err (some "Invalid YouTube URL."))
      else
        Resp.mk 400 (RespBody.err
          (some "Missing 'url' parameter in the request body."))) ∧
    download_by_resolution env resolution body =
      download_by_resolution env2 resolution body ∧
    video_info env body = video_info env2 body ∧
    available_resolutions env body = available_resolutions env2 body := by
  by_cases ht : pyTruthy body.url = true
  · have hv : is_valid_youtube_url (body.url.getD "") = false := by
      rcases h with h2 | h2
      · rw [ht] at h2
        cases h2
      · exact h2
    simp [download_by_resolution, video_info, available_resolutions, ht, hv]
  · have ht2 : pyTruthy body.url = false := by
      simpa using ht
    simp [download_by_resolution, video_info, available_resolutions, ht2]

/-- Witness for C5: a present but malformed url. -/
theorem invalid_url_rejected_early_witness :
    (pyTruthy (RequestBody.mk (some "not-a-url") Option.none Option.none).url
        = false ∨
      is_valid_youtube_url
        ((RequestBody.mk (some "not-a-url") Option.none Option.none).url.getD "")
        = false) ∧
    download_by_resolution envBotSample "720p"
        ⟨some "not-a-url", Option.none, Option.none⟩ =
      ((if pyTruthy (some "not-a-url") then
          Resp.mk 400 (RespBody.err (some "Invalid YouTube URL."))
        else
          Resp.mk 400 (RespBody.err
            (some "Missing 'url' parameter in the request body."))), []) ∧
    video_info envBotSample ⟨some "not-a-url", Option.none, Option.none⟩ =
      (if pyTruthy (some "not-a-url") then
        Resp.mk 400 (RespBody.err (some "Invalid YouTube URL."))
      else
        Resp.mk 400 (RespBody.err
          (some "Missing 'url' parameter in the request body."))) ∧
    available_resolutions envBotSample
        ⟨some "not-a-url", Option.none, Option.none⟩ =
      (if pyTruthy (some "not-a-url") then
        Resp.mk 400 (RespBody.err (some "Invalid YouTube URL."))
      else
        Resp.mk 400 (RespBody.err
          (some "Missing 'url' parameter in the request body."))) ∧
    download_by_resolution envBotSample "720p"
        ⟨some "not-a-url", Option.none, Option.none⟩ =
      download_by_resolution envBotSample "720p"
        ⟨some "not-a-url", Option.none, Option.none⟩ ∧
    video_info envBotSample ⟨some "not-a-url", Option.none, Option.none⟩ =
      video_info envBotSample ⟨some "not-a-url", Option.none, Option.none⟩ ∧
    available_resolutions envBotSample
        ⟨some "not-a-url", Option.none, Option.none⟩ =
      available_resolutions envBotSample
        ⟨some "not-a-url", Option.none, Option.none⟩ :=
  ⟨Or.inr (by decide),
    invalid_url_rejected_early envBotSample envBotSample "720p"
      ⟨some "not-a-url", Option.none, Option.none⟩ (Or.inr (by decide))⟩

/-! ### Claims about the metadata handler -/

/-- Claim C7: with a valid url and a successfully resolved session, the
video_info handler answers 200 with a body holding exactly the six
fields title, author, length, views, description and publish_date, each
equal verbatim to the value of the corresponding metadata accessor of
the resolved session. -/
theorem video_info_verbatim (env : Env) (body : RequestBody) (u : String)
    (yt : YT) (hu : body.url = some u) (hv : is_valid_youtube_url u = true)
    (hres : (get_yt_object env body.po_token body.visitor_data).1 =
      Except.ok yt) :
    video_info env body =
      ⟨200, RespBody.info ⟨yt.title, yt.author, yt.length, yt.views,
        yt.description, yt.publish_date⟩⟩ := by
  have hne : u ≠ "" := by
    intro h2
    subst h2
    exact absurd hv (by decide)
  have ht : pyTruthy (some u) = true := by
    simp [pyTruthy, hne]
  simp [video_info, get_video_info, ht, hu, hv, hres]

/-- Witness for C7 at a concrete oracle and url. -/
theorem video_info_verbatim_witness :
    ((RequestBody.mk (some "https://www.youtube.com/watch?v=abc123")
        Option.none Option.none).url =
      some "https://www.youtube.com/watch?v=abc123") ∧
    (is_valid_youtube_url "https://www.youtube.com/watch?v=abc123" = true) ∧
    ((get_yt_object envOkSample Option.none Option.none).1 =
      Except.ok ytSample) ∧
    video_info envOkSample
        ⟨some "https://www.youtube.com/watch?v=abc123", Option.none,
          Option.none⟩ =
      ⟨200, RespBody.info ⟨ytSample.title, ytSample.author, ytSample.length,
        ytSample.views, ytSample.description, ytSample.publish_date⟩⟩ :=
  ⟨rfl, by decide, rfl,
    video_info_verbatim envOkSample
      ⟨some "https://www.youtube.com/watch?v=abc123", Option.none, Option.none⟩
      "https://www.youtube.com/watch?v=abc123" ytSample rfl (by decide) rfl⟩

/-! ### Claims about the resolutions handler -/

theorem mem_pySorted {l : List String} {r : String} :
    r ∈ pySorted l ↔ r ∈ l :=
  (List.perm_insertionSort _ l).mem_iff

theorem nodup_pySorted {l : List String} (h : l.Nodup) : (pySorted l).Nodup :=
  ((List.perm_insertionSort _ l).nodup_iff).mpr h

theorem sorted_pySorted (l : List String) :
    (pySorted l).Sorted (fun a b : String => a ≤ b) :=
  List.sorted_insertionSort _ l

theorem mem_resLists {streams : List YStream} {p : YStream → Bool} {r : String} :
    r ∈ pySorted (pySetList ((streams.filter p).filterMap truthyRes)) ↔
      r ≠ "" ∧ ∃ st ∈ streams, p st = true ∧ st.resolution = some r := by
  rw [mem_pySorted]
  unfold pySetList
  rw [List.mem_dedup, List.mem_filterMap]
  constructor
  · rintro ⟨st, hst, htr⟩
    obtain ⟨h1, h2⟩ := List.mem_filter.mp hst
    cases hres2 : st.resolution with
    | none => simp [truthyRes, hres2] at htr
    | some r2 =>
      by_cases he : r2 = ""
      · simp [truthyRes, hres2, he] at htr
      · simp only [truthyRes, hres2, if_neg he, Option.some.injEq] at htr
        subst htr
        exact ⟨he, st, h1, h2, hres2⟩
  · rintro ⟨hne, st, hmem, hp, hres2⟩
    refine ⟨st, List.mem_filter.mpr ⟨hmem, hp⟩, ?_⟩
    simp [truthyRes, hres2, hne]

/-- Claim C4: with a valid url and a successfully resolved session, the
available_resolutions handler answers 200 with two lists: progressive
holding exactly the resolution labels of progressive mp4 streams, and
all holding exactly the labels of all mp4 streams; both lists are
deduplicated, sorted lexicographically as strings, and exclude every
stream whose resolution label is empty or absent. -/
theorem available_resolutions_sorted_dedup (env : Env) (body : RequestBody)
    (u : String) (yt : YT) (hu : body.url = some u)
    (hv : is_valid_youtube_url u = true)
    (hres : (get_yt_object env body.po_token body.visitor_data).1 =
      Except.ok yt) :
    ∃ P A, available_resolutions env body = ⟨200, RespBody.resolutions P A⟩ ∧
      P.Nodup ∧ A.Nodup ∧
      P.Sorted (fun a b : String => a ≤ b) ∧
      A.Sorted (fun a b : String => a ≤ b) ∧
      (∀ r : String, r ∈ P ↔ r ≠ "" ∧ ∃ st ∈ yt.streams,
        st.progressive = true ∧ st.file_extension = "mp4" ∧
        st.resolution = some r) ∧
      (∀ r : String, r ∈ A ↔ r ≠ "" ∧ ∃ st ∈ yt.streams,
        st.file_extension = "mp4" ∧ st.resolution = some r) := by
  have hne : u ≠ "" := fun h2 => by
    subst h2
    exact absurd hv (by decide)
  have ht : pyTruthy (some u) = true := by
    simp [pyTruthy, hne]
  refine ⟨pySorted (pySetList ((yt.streams.filter fun st =>
      st.progressive && st.file_extension == "mp4").filterMap truthyRes)),
    pySorted (pySetList ((yt.streams.filter fun st =>
      st.file_extension == "mp4").filterMap truthyRes)),
    ?_, nodup_pySorted (List.nodup_dedup _), nodup_pySorted (List.nodup_dedup _),
    sorted_pySorted _, sorted_pySorted _, ?_, ?_⟩
  · simp [available_resolutions, hu, ht, hv, hres]
  · intro r
    rw [mem_resLists]
    simp only [Bool.and_eq_true, beq_iff_eq, and_assoc]
  · intro r
    rw [mem_resLists]
    simp only [beq_iff_eq]

/-- Witness for C4 at a concrete oracle covering duplicate labels, an
adaptive mp4 stream, a label-less stream and a non-mp4 stream. -/
theorem available_resolutions_sorted_dedup_witness :
    ((RequestBody.mk (some "https://www.youtube.com/watch?v=abc123")
        Option.none Option.none).url =
      some "https://www.youtube.com/watch?v=abc123") ∧
    (is_valid_youtube_url "https://www.youtube.com/watch?v=abc123" = true) ∧
    ((get_yt_object envOkSample Option.none Option.none).1 =
      Except.ok ytSample) ∧
    (∃ P A, available_resolutions envOkSample
        ⟨some "https://www.youtube.com/watch?v=abc123", Option.none,
          Option.none⟩ = ⟨200, RespBody.resolutions P A⟩ ∧
      P.Nodup ∧ A.Nodup ∧
      P.Sorted (fun a b : String => a ≤ b) ∧
      A.Sorted (fun a b : String => a ≤ b) ∧
      (∀ r : String, r ∈ P ↔ r ≠ "" ∧ ∃ st ∈ ytSample.streams,
        st.progressive = true ∧ st.file_extension = "mp4" ∧
        st.resolution = some r) ∧
      (∀ r : String, r ∈ A ↔ r ≠ "" ∧ ∃ st ∈ ytSample.streams,
        st.file_extension = "mp4" ∧ st.resolution = some r)) :=
  ⟨rfl, by decide, rfl,
    available_resolutions_sorted_dedup envOkSample
      ⟨some "https://www.youtube.com/watch?v=abc123", Option.none, Option.none⟩
      "https://www.youtube.com/watch?v=abc123" ytSample rfl (by decide) rfl⟩

/-! ### Claims about the download handler -/

/-- Claim C6: with a valid url and a successfully resolved session that
has no progressive mp4 stream at the requested resolution, the download
handler answers 500 with exactly the fixed message "Video with the
specified resolution not found." and writes nothing; by contrast a
session-resolution failure is answered 500 with the underlying message
passed through. -/
theorem resolution_not_found_distinct (env : Env) (resolution : String)
    (body : RequestBody) (u : String) (hu : body.url = some u)
    (hv : is_valid_youtube_url u = true) :
    (∀ yt, (get_yt_object env body.po_token body.visitor_data).1 =
        Except.ok yt →
      (∀ st ∈ yt.streams, ¬(st.progressive = true ∧
        st.file_extension = "mp4" ∧ st.resolution = some resolution)) →
      download_by_resolution env resolution body =
        (⟨500, RespBody.err
          (some "Video with the specified resolution not found.")⟩, [])) ∧
    (∀ e, (get_yt_object env body.po_token body.visitor_data).1 =
        Except.error e →
      download_by_resolution env resolution body =
        (⟨500, RespBody.err (some e)⟩, [])) := by
  have hne : u ≠ "" := fun h2 => by
    subst h2
    exact absurd hv (by decide)
  have ht : pyTruthy (some u) = true := by
    simp [pyTruthy, hne]
  constructor
  · intro yt hres hnone
    have hfil : (yt.streams.filter fun st =>
        st.progressive && st.file_extension == "mp4" &&
          st.resolution == some resolution) = [] := by
      rw [List.filter_eq_nil_iff]
      intro st hst
      have h3 := hnone st hst
      simp only [Bool.and_eq_true, beq_iff_eq]
      intro h4
      exact h3 ⟨h4.1.1, h4.1.2, h4.2⟩
    simp [download_by_resolution, download_video, hu, ht, hv, hres, hfil]
  · intro e hres
    simp [download_by_resolution, download_video, hu, ht, hv, hres]

/-- Witness for C6: the sample session has no progressive mp4 stream at
1081p, and a failing oracle passes its message through. -/
theorem resolution_not_found_distinct_witness :
    ((RequestBody.mk (some "https://www.youtube.com/watch?v=abc123")
        Option.none Option.none).url =
      some "https://www.youtube.com/watch?v=abc123") ∧
    (is_valid_youtube_url "https://www.youtube.com/watch?v=abc123" = true) ∧
    ((∀ yt, (get_yt_object envOkSample Option.none Option.none).1 =
        Except.ok yt →
      (∀ st ∈ yt.streams, ¬(st.progressive = true ∧
        st.file_extension = "mp4" ∧ st.resolution = some "1081p")) →
      download_by_resolution envOkSample "1081p"
          ⟨some "https://www.youtube.com/watch?v=abc123", Option.none,
            Option.none⟩ =
        (⟨500, RespBody.err
          (some "Video with the specified resolution not found.")⟩, [])) ∧
    (∀ e, (get_yt_object envOkSample Option.none Option.none).1 =
        Except.error e →
      download_by_resolution envOkSample "1081p"
          ⟨some "https://www.youtube.com/watch?v=abc123", Option.none,
            Option.none⟩ =
        (⟨500, RespBody.err (some e)⟩, []))) :=
  ⟨rfl, by decide,
    resolution_not_found_distinct envOkSample "1081p"
      ⟨some "https://www.youtube.com/watch?v=abc123", Option.none, Option.none⟩
      "https://www.youtube.com/watch?v=abc123" rfl (by decide)⟩

/-! ### The split of the url into the video id -/

theorem splitVEqGo_noV : ∀ {pre z : List Char}, (∀ c ∈ pre, c ≠ 'v') →
    splitVEqGo (pre ++ z) = (pre ++ (splitVEqGo z).1, (splitVEqGo z).2) := by
  intro pre
  induction pre with
  | nil =>
    intro z _
    rfl
  | cons c pre ih =>
    intro z h
    have hc : c ≠ 'v' := h c (by simp)
    have h2 : ∀ d ∈ pre, d ≠ 'v' := fun d hd => h d (by simp [hd])
    cases hq : pre ++ z with
    | nil =>
      obtain ⟨rfl, rfl⟩ := List.append_eq_nil.mp hq
      simp [splitVEqGo]
    | cons d rest =>
      have hrw : splitVEqGo (c :: pre ++ z) =
          (c :: (splitVEqGo (pre ++ z)).1, (splitVEqGo (pre ++ z)).2) := by
        rw [List.cons_append, hq]
        simp only [splitVEqGo]
        rw [if_neg (fun hand => hc hand.1)]
      rw [hrw, ih h2, List.cons_append]

theorem splitVEqGo_marker (w : List Char) :
    splitVEqGo ('v' :: '=' :: w) = ([], (splitVEqGo w).1 :: (splitVEqGo w).2) := by
  simp [splitVEqGo]

theorem isTokenChar_ne_special {c : Char} (h : isTokenChar c = true) :
    c ≠ '=' ∧ c ≠ '&' := by
  constructor <;> intro h2 <;> subst h2 <;> exact absurd h (by decide)

theorem splitVEqGo_token : ∀ {tok rest : List Char},
    (∀ c ∈ tok, isTokenChar c = true) →
    (rest = [] ∨ rest = ['\n'] ∨ ∃ w, rest = '&' :: w) →
    (splitVEqGo (tok ++ rest)).1 = tok ++ (splitVEqGo rest).1 := by
  intro tok
  induction tok with
  | nil =>
    intro rest _ _
    simp
  | cons c tok ih =>
    intro rest h hrest
    have h2 : ∀ d ∈ tok, isTokenChar d = true := fun d hd => h d (by simp [hd])
    cases hq : tok ++ rest with
    | nil =>
      obtain ⟨rfl, rfl⟩ := List.append_eq_nil.mp hq
      simp [splitVEqGo]
    | cons d rest2 =>
      have hd : d ≠ '=' := by
        cases tok with
        | cons e tok2 =>
          rw [List.cons_append] at hq
          injection hq with h3 h4
          subst h3
          exact (isTokenChar_ne_special (h2 e (by simp))).1
        | nil =>
          simp only [List.nil_append] at hq
          rcases hrest with rfl | rfl | ⟨w, rfl⟩
          · cases hq
          · injection hq with h3 h4
            subst h3
            decide
          · injection hq with h3 h4
            subst h3
            decide
      have hrw : splitVEqGo (c :: tok ++ rest) =
          (c :: (splitVEqGo (tok ++ rest)).1, (splitVEqGo (tok ++ rest)).2) := by
        rw [List.cons_append, hq]
        simp only [splitVEqGo]
        rw [if_neg (fun hand => hd hand.2)]
      rw [hrw, ih h2 hrest, List.cons_append]

theorem splitVEqGo_amp (w : List Char) :
    ∃ j, (splitVEqGo ('&' :: w)).1 = '&' :: j := by
  cases w with
  | nil => exact ⟨[], rfl⟩
  | cons d rest =>
    refine ⟨(splitVEqGo (d :: rest)).1, ?_⟩
    simp only [splitVEqGo]
    rw [if_neg (fun hand => absurd hand.1 (by decide))]

theorem splitAmpGo_noAmp : ∀ {a z : List Char}, (∀ c ∈ a, c ≠ '&') →
    (splitAmpGo (a ++ z)).1 = a ++ (splitAmpGo z).1 := by
  intro a
  induction a with
  | nil =>
    intro z _
    simp
  | cons c a ih =>
    intro z h
    have hc : c ≠ '&' := h c (by simp)
    have h2 : ∀ d ∈ a, d ≠ '&' := fun d hd => h d (by simp [hd])
    rw [List.cons_append]
    simp only [splitAmpGo]
    rw [if_neg hc]
    simp [ih h2]

theorem splitAmpGo_amp (w : List Char) : (splitAmpGo ('&' :: w)).1 = [] := by
  simp [splitAmpGo]

theorem takeWhile_append_all {p : Char → Bool} : ∀ {a z : List Char},
    (∀ c ∈ a, p c = true) → (a ++ z).takeWhile p = a ++ z.takeWhile p := by
  intro a
  induction a with
  | nil =>
    intro z _
    simp
  | cons c a ih =>
    intro z h
    rw [List.cons_append, List.takeWhile_cons_of_pos (h c (by simp)),
      ih fun d hd => h d (by simp [hd]), List.cons_append]

theorem afterMarker_noV : ∀ {pre z : List Char}, (∀ c ∈ pre, c ≠ 'v') →
    afterMarker (pre ++ z) = afterMarker z := by
  intro pre
  induction pre with
  | nil =>
    intro z _
    rfl
  | cons c pre ih =>
    intro z h
    have hc : c ≠ 'v' := h c (by simp)
    have h2 : ∀ d ∈ pre, d ≠ 'v' := fun d hd => h d (by simp [hd])
    cases hq : pre ++ z with
    | nil =>
      obtain ⟨rfl, rfl⟩ := List.append_eq_nil.mp hq
      rfl
    | cons d rest =>
      have hrw : afterMarker (c :: pre ++ z) = afterMarker (pre ++ z) := by
        rw [List.cons_append, hq]
        simp only [afterMarker]
        rw [if_neg (fun hand => hc hand.1)]
      rw [hrw, ih h2]

theorem afterMarker_marker (w : List Char) :
    afterMarker ('v' :: '=' :: w) = some w := by
  simp [afterMarker]

/-- Every url the validator accepts splits as a v-free head, the marker
"v=", the token, and a tail that is empty, a lone newline, or an
ampersand followed by anything. -/
theorem valid_url_structure {url : String}
    (h : is_valid_youtube_url url = true) :
    ∃ pre tok rest, (∀ c ∈ pre, c ≠ 'v') ∧
      tok ≠ [] ∧ (∀ c ∈ tok, isTokenChar c = true) ∧
      (rest = [] ∨ rest = ['\n'] ∨ ∃ w, rest = '&' :: w) ∧
      url.data = pre ++ 'v' :: '=' :: (tok ++ rest) := by
  obtain ⟨scheme, www, tok, rest, hs, hw, hne, htok, hrest, heq⟩ :=
    (schemePart_iff finOk_endPy url.data).mp h
  have hv1 : ∀ c ∈ ("http://".data : List Char), c ≠ 'v' := by decide
  have hv2 : ∀ c ∈ ("https://".data : List Char), c ≠ 'v' := by decide
  have hv3 : ∀ c ∈ ("www.".data : List Char), c ≠ 'v' := by decide
  have hv4 : ∀ c ∈ ("youtube.com/watch?".data : List Char), c ≠ 'v' := by decide
  refine ⟨scheme ++ www ++ "youtube.com/watch?".data, tok, rest, ?_, hne, htok,
    ?_, ?_⟩
  · intro c hc
    rcases List.mem_append.mp hc with hc2 | hc2
    · rcases List.mem_append.mp hc2 with hc3 | hc3
      · rcases hs with rfl | rfl | rfl
        · cases hc3
        · exact hv1 c hc3
        · exact hv2 c hc3
      · rcases hw with rfl | rfl
        · cases hc3
        · exact hv3 c hc3
    · exact hv4 c hc2
  · rcases hrest with h2 | ⟨q, r, rfl, _, _⟩
    · rcases endPy_eq_true.mp h2 with rfl | rfl
      · exact Or.inl rfl
      · exact Or.inr (Or.inl rfl)
    · exact Or.inr (Or.inr ⟨q ++ r, rfl⟩)
  · rw [heq]
    have hsplit : ("youtube.com/watch?v=".data : List Char) =
      "youtube.com/watch?".data ++ ['v', '='] := by decide
    rw [hsplit]
    simp [List.append_assoc]

/-- The id computed by the program on a url of the accepted structure:
the token, extended by the lone trailing newline when present. -/
theorem videoId_eq_of_structure {url : String} {pre tok rest : List Char}
    (hpre : ∀ c ∈ pre, c ≠ 'v')
    (htok : ∀ c ∈ tok, isTokenChar c = true)
    (hrest : rest = [] ∨ rest = ['\n'] ∨ ∃ w, rest = '&' :: w)
    (heq : url.data = pre ++ 'v' :: '=' :: (tok ++ rest)) :
    videoId url =
      some (String.mk (tok ++ rest.takeWhile fun c => !(c == '&'))) := by
  have hAmp : ∀ c ∈ tok, c ≠ '&' :=
    fun c hc => (isTokenChar_ne_special (htok c hc)).2
  have hgo : splitVEqGo url.data =
      (pre, (splitVEqGo (tok ++ rest)).1 :: (splitVEqGo (tok ++ rest)).2) := by
    rw [heq, splitVEqGo_noV hpre, splitVEqGo_marker]
    simp
  have hseg : (splitVEqGo (tok ++ rest)).1 = tok ++ (splitVEqGo rest).1 :=
    splitVEqGo_token htok hrest
  unfold videoId pySplitVEq pySplitAmp
  rw [hgo]
  simp only [List.getElem?_cons_succ, List.getElem?_cons_zero, Option.some.injEq,
    List.headD_cons]
  rw [hseg]
  rcases hrest with rfl | rfl | ⟨w, rfl⟩
  · have : (splitAmpGo (tok ++ ([] : List Char))).1 = tok ++ (splitAmpGo []).1 :=
      splitAmpGo_noAmp hAmp
    simp only [List.append_nil] at this ⊢
    rw [show (splitVEqGo ([] : List Char)).1 = [] from rfl]
    rw [List.append_nil, this]
    simp [splitAmpGo]
  · rw [show (splitVEqGo ['\n']).1 = ['\n'] from rfl]
    rw [splitAmpGo_noAmp hAmp]
    simp [splitAmpGo, List.takeWhile]
  · obtain ⟨j, hj⟩ := splitVEqGo_amp w
    rw [hj, splitAmpGo_noAmp hAmp, splitAmpGo_amp]
    simp [List.takeWhile]

/-- The id described by the spec on a url of the accepted structure:
the same value. -/
theorem specVideoId_eq_of_structure {url : String} {pre tok rest : List Char}
    (hpre : ∀ c ∈ pre, c ≠ 'v')
    (htok : ∀ c ∈ tok, isTokenChar c = true)
    (heq : url.data = pre ++ 'v' :: '=' :: (tok ++ rest)) :
    specVideoId url =
      some (String.mk (tok ++ rest.takeWhile fun c => !(c == '&'))) := by
  have hAmp : ∀ c ∈ tok, (!(c == '&')) = true := by
    intro c hc
    have := (isTokenChar_ne_special (htok c hc)).2
    simp [this]
  unfold specVideoId
  rw [heq, afterMarker_noV hpre, afterMarker_marker]
  simp only [Option.map_some']
  rw [takeWhile_append_all hAmp]

/-- Claim C8: for every url the validator accepts, the download handler
derives exactly one output location, the directory ./downloads/<id>
where <id> is the substring of the url between the first occurrence of
"v=" and the next ampersand; under that precondition the derivation
never fails, and at most this one directory is created or written per
call. -/
theorem download_single_output_dir (url : String)
    (h : is_valid_youtube_url url = true) :
    ∃ id, videoId url = some id ∧ specVideoId url = some id ∧
      ∀ env resolution po vis,
        (download_video env url resolution po vis).2 = [] ∨
        (download_video env url resolution po vis).2 =
          ["./downloads/" ++ id] := by
  obtain ⟨pre, tok, rest, hpre, hne, htok, hrest, heq⟩ := valid_url_structure h
  refine ⟨String.mk (tok ++ rest.takeWhile fun c => !(c == '&')),
    videoId_eq_of_structure hpre htok hrest heq,
    specVideoId_eq_of_structure hpre htok heq, ?_⟩
  intro env resolution po vis
  cases hg : (get_yt_object env po vis).1 with
  | error e => simp [download_video, hg]
  | ok yt =>
    cases hh : (yt.streams.filter fun st =>
        st.progressive && st.file_extension == "mp4" &&
          st.resolution == some resolution).head? with
    | none => simp [download_video, hg, hh]
    | some st =>
      simp [download_video, hg, hh,
        videoId_eq_of_structure hpre htok hrest heq]

/-- Witness for C8 at a concrete url with a query tail. -/
theorem download_single_output_dir_witness :
    (is_valid_youtube_url "https://www.youtube.com/watch?v=abc&list=x" = true) ∧
    (∃ id, videoId "https://www.youtube.com/watch?v=abc&list=x" = some id ∧
      specVideoId "https://www.youtube.com/watch?v=abc&list=x" = some id ∧
      ∀ env resolution po vis,
        (download_video env "https://www.youtube.com/watch?v=abc&list=x"
          resolution po vis).2 = [] ∨
        (download_video env "https://www.youtube.com/watch?v=abc&list=x"
          resolution po vis).2 = ["./downloads/" ++ id]) :=
  ⟨by decide,
    download_single_output_dir "https://www.youtube.com/watch?v=abc&list=x"
      (by decide)⟩
